import Mathlib

/-!
# Verification of the Report-Helper work-log and report-generation tool

Shallow embedding, in Lean 4, of the logic of the repository's Python sources
(`config_manager.py`, `report_generator.py`, `ai_generator.py`,
`feishu_client.py`, `feishu_scheduler.py`), followed by theorems settling the
frozen specification claims about that logic.

Conventions of the embedding:
* Python `str` becomes Lean `String` (Python string `<=` is lexicographic
  code-point comparison, matching the `LinearOrder String` instance).
* Python `datetime.date` / `datetime.datetime` become explicit `Date` /
  `DateTime` structures over `Nat`, with calendar arithmetic
  (`nextDay`/`prevDay`) spelled out; time-of-day is modelled at second
  granularity.
* Python dicts become either structures (fixed-shape records such as a work
  log entry) or association lists with unique keys (JSON documents).
* Fallible paths return `Option`/`Except`; calls into the network are
  parameters of the embedding (the outcome of each attempt is an argument).
-/

/-! ## Calendar dates (`datetime.date` fragment used by the sources) -/

/-- A calendar date, mirroring the `(year, month, day)` of `datetime.date`. -/
structure Date where
  year : Nat
  month : Nat
  day : Nat
deriving Repr, DecidableEq

/-- Gregorian leap-year rule, as implemented by Python's `calendar`/`datetime`. -/
def isLeapYear (y : Nat) : Bool :=
  (y % 4 == 0 && y % 100 != 0) || y % 400 == 0

/-- Number of days in month `m` of year `y` (Gregorian calendar, the arithmetic
`datetime.date` implements). -/
def daysInMonth (y m : Nat) : Nat :=
  if m == 2 then (if isLeapYear y then 29 else 28)
  else if m == 4 || m == 6 || m == 9 || m == 11 then 30
  else 31

/-- Validity of a date (what `datetime.date` enforces at construction). -/
def Date.valid (d : Date) : Prop :=
  1 ≤ d.year ∧ 1 ≤ d.month ∧ d.month ≤ 12 ∧ 1 ≤ d.day ∧ d.day ≤ daysInMonth d.year d.month

instance (d : Date) : Decidable d.valid := by
  unfold Date.valid; infer_instance

/-- The day after `d` (`d + timedelta(days=1)`). -/
def nextDay (d : Date) : Date :=
  if d.day < daysInMonth d.year d.month then ⟨d.year, d.month, d.day + 1⟩
  else if d.month < 12 then ⟨d.year, d.month + 1, 1⟩
  else ⟨d.year + 1, 1, 1⟩

/-- The day before `d` (`d - timedelta(days=1)`). -/
def prevDay (d : Date) : Date :=
  if 1 < d.day then ⟨d.year, d.month, d.day - 1⟩
  else if 1 < d.month then ⟨d.year, d.month - 1, daysInMonth d.year (d.month - 1)⟩
  else ⟨d.year - 1, 12, 31⟩

/-- Python `d + timedelta(days=n)`. -/
def addDays (d : Date) : Nat → Date
  | 0 => d
  | n + 1 => addDays (nextDay d) n

/-- Python `d - timedelta(days=n)`. -/
def subDays (d : Date) : Nat → Date
  | 0 => d
  | n + 1 => subDays (prevDay d) n

/-- Days of the Gregorian year strictly before month `m` of year `y`. -/
def daysBeforeMonth (y m : Nat) : Nat :=
  (List.range (m - 1)).foldl (fun acc k => acc + daysInMonth y (k + 1)) 0

/-- Proleptic-Gregorian ordinal of a date, as in `datetime.date.toordinal`
(`0001-01-01` has ordinal 1). -/
def Date.toOrdinal (d : Date) : Nat :=
  365 * (d.year - 1) + ((d.year - 1) / 4 - (d.year - 1) / 100 + (d.year - 1) / 400)
    + daysBeforeMonth d.year d.month + d.day

/-- Python `datetime.date.weekday`: Monday = 0 … Sunday = 6 (`0001-01-01` is a Monday). -/
def weekday (d : Date) : Nat :=
  (d.toOrdinal + 6) % 7

/-- Zero-pad a natural to two digits (`%m`, `%d` of `strftime`). -/
def pad2 (n : Nat) : String :=
  if n < 10 then "0" ++ toString n else toString n

/-- Zero-pad a natural to four digits (`%Y` of `strftime`). -/
def pad4 (n : Nat) : String :=
  if n < 10 then "000" ++ toString n
  else if n < 100 then "00" ++ toString n
  else if n < 1000 then "0" ++ toString n
  else toString n

/-- Python `strftime('%Y-%m-%d')`. -/
def formatDate (d : Date) : String :=
  pad4 d.year ++ "-" ++ pad2 d.month ++ "-" ++ pad2 d.day

/-! ## Work-log store (`config_manager.py`)

A stored work-log entry is a JSON dict with a fixed shape; the `dict.get`
defaults of the Python readers are folded into total record fields. -/

/-- One stored work-log entry (element of `config["work_logs"]`).
The dict key `type` is rendered as the field `logType`. -/
structure WorkLog where
  id : Nat
  date : String
  content : String
  logType : String
  priority : String
  status : String
  tags : List String
  createdAt : String
  updatedAt : Option String
deriving Repr, DecidableEq

/-- The caller-supplied dict passed to `add_work_log` / `update_work_log`
(before the store assigns `id` and the timestamps). -/
structure WorkLogData where
  date : String
  content : String
  logType : String
  priority : String
  status : String
  tags : List String
  createdAt : String
deriving Repr, DecidableEq

/-- Embeds `ConfigManager.add_work_log`: assigns `id = len(work_logs) + 1`, stamps
`created_at = now`, and appends.  `now` stands for `datetime.now().isoformat()`. -/
def addWorkLog (store : List WorkLog) (data : WorkLogData) (now : String) : List WorkLog :=
  store ++ [{ id := store.length + 1, date := data.date, content := data.content,
              logType := data.logType, priority := data.priority, status := data.status,
              tags := data.tags, createdAt := now, updatedAt := none }]

/-- The replacement record `update_work_log` stores: the incoming dict plus
`id = log_id` and `updated_at = now` (replace-whole-record semantics). -/
def replaceLog (logId : Nat) (data : WorkLogData) (now : String) : WorkLog :=
  { id := logId, date := data.date, content := data.content, logType := data.logType,
    priority := data.priority, status := data.status, tags := data.tags,
    createdAt := data.createdAt, updatedAt := some now }

/-- The scan of `update_work_log`: replace the first entry whose `id` matches,
`none` when no entry matches. -/
def updateWorkLogList (logId : Nat) (data : WorkLogData) (now : String) :
    List WorkLog → Option (List WorkLog)
  | [] => none
  | log :: rest =>
    if log.id == logId then some (replaceLog logId data now :: rest)
    else (updateWorkLogList logId data now rest).map (log :: ·)

/-- Embeds `ConfigManager.update_work_log`.  Result: the new store, the returned
boolean, and whether `save_config` was called.  On a match the method returns
`save_config()` (modelled by `saveOk`); on no match it returns `False` without
touching the store or calling `save_config`. -/
def updateWorkLog (store : List WorkLog) (logId : Nat) (data : WorkLogData) (now : String)
    (saveOk : Bool) : List WorkLog × Bool × Bool :=
  match updateWorkLogList logId data now store with
  | some newStore => (newStore, saveOk, true)
  | none => (store, false, false)

/-- Embeds `ConfigManager.delete_work_log`: keep entries whose `id` differs. -/
def deleteWorkLog (store : List WorkLog) (logId : Nat) : List WorkLog :=
  store.filter (fun log => log.id != logId)

/-- One mutating store operation, with the wall-clock timestamp it observes. -/
inductive StoreOp where
  | add (data : WorkLogData) (now : String)
  | update (logId : Nat) (data : WorkLogData) (now : String)
  | delete (logId : Nat)
deriving Repr, DecidableEq

/-- Whether an operation is a deletion. -/
def StoreOp.isDelete : StoreOp → Bool
  | .delete _ => true
  | _ => false

/-- Apply one operation to the in-memory `work_logs` list. -/
def applyOp (store : List WorkLog) : StoreOp → List WorkLog
  | .add data now => addWorkLog store data now
  | .update logId data now => (updateWorkLog store logId data now true).1
  | .delete logId => deleteWorkLog store logId

/-- Run a sequence of operations from a given store. -/
def runOps (store : List WorkLog) (ops : List StoreOp) : List WorkLog :=
  ops.foldl applyOp store

/-! ## Report generation (`report_generator.py`) -/

/-- The comparison `a.date <= b.date` that orders filtered logs
(Python string `<=`, lexicographic on code points). -/
def logDateLe (a b : WorkLog) : Prop := a.date ≤ b.date

instance : DecidableRel logDateLe := fun a b => by
  unfold logDateLe; infer_instance

instance : IsTotal WorkLog logDateLe := ⟨fun a b => le_total a.date b.date⟩

instance : IsTrans WorkLog logDateLe := ⟨fun _ _ _ h h' => le_trans h h'⟩

/-- Embeds `ReportGenerator.get_logs_by_date_range`: keep logs with
`start_date <= log['date'] <= end_date` (inclusive string comparison), then
sort ascending by date (`list.sort` is a stable ascending sort; modelled by
stable insertion sort). -/
def getLogsByDateRange (allLogs : List WorkLog) (startDate endDate : String) : List WorkLog :=
  let filtered := allLogs.filter (fun log => decide (startDate ≤ log.date) && decide (log.date ≤ endDate))
  List.insertionSort logDateLe filtered

/-- Models `"\n".join("- " + content for ...)` with the Python `or default` fallback
(the empty string is falsy, so an empty join yields the default). -/
def bulletJoin (logs : List WorkLog) (dflt : String) : String :=
  let s := String.intercalate "\n" (logs.map (fun log => "- " ++ log.content))
  if s.isEmpty then dflt else s

/-- Embeds `ReportGenerator.format_logs_for_template`: the dict of the nine template
placeholder values.  (The source also computes `meeting_logs` and
`learning_logs`, which it never uses; they are omitted as dead code.) -/
def formatLogsForTemplate (logs : List WorkLog) : List (String × String) :=
  if logs.isEmpty then
    [("completed_tasks", "暂无记录"),
     ("ongoing_tasks", "暂无记录"),
     ("tomorrow_plan", "待规划"),
     ("achievements", "暂无记录"),
     ("completed_projects", "暂无记录"),
     ("next_week_plan", "待规划"),
     ("monthly_achievements", "暂无记录"),
     ("milestones", "暂无记录"),
     ("next_month_goals", "待规划")]
  else
    let highPriority := logs.filter (fun log => log.priority == "高")
    let completed := logs.filter (fun log => log.status == "已完成")
    let inProgress := logs.filter (fun log => log.status == "进行中")
    let workLogs := logs.filter (fun log => log.logType == "工作")
    [("completed_tasks", bulletJoin completed "暂无完成事项"),
     ("ongoing_tasks", bulletJoin inProgress "暂无进行中事项"),
     ("tomorrow_plan", "根据今日进展制定明日计划"),
     ("achievements", bulletJoin highPriority "暂无重要成果"),
     ("completed_projects",
        bulletJoin (completed.filter (fun log => log.logType == "项目")) "暂无完成项目"),
     ("next_week_plan", "基于本周进展制定下周计划"),
     ("monthly_achievements", bulletJoin (workLogs.take 5) "暂无月度成果"),
     ("milestones", bulletJoin (highPriority.take 3) "暂无重要里程碑"),
     ("next_month_goals", "基于本月总结制定下月目标")]

/-- First-match association-list lookup (Python `dict` access by key). -/
def lookupStr (pairs : List (String × String)) (key : String) : Option String :=
  match pairs with
  | [] => none
  | (k, v) :: rest => if k == key then some v else lookupStr rest key

/-- The opening-brace character, written by code point. -/
def braceOpen : Char := Char.ofNat 123

/-- The closing-brace character, written by code point. -/
def braceClose : Char := Char.ofNat 125

/-- Fuel-indexed scanner for `str.format(**data)` restricted to plain named
placeholders (the only feature the templates use): copies characters, and at
an opening brace substitutes the named value.  `none` models the exception
`str.format` raises on an unknown name or an unterminated placeholder.  The
fuel dominates the character count, so it is never exhausted in
`renderTemplate`. -/
def substAux (data : List (String × String)) : Nat → List Char → Option (List Char)
  | _, [] => some []
  | 0, _ :: _ => none
  | fuel + 1, c :: rest =>
    if c == braceOpen then
      let name := rest.takeWhile (fun ch => ch != braceClose)
      match rest.dropWhile (fun ch => ch != braceClose) with
      | [] => none
      | _ :: afterRest =>
        match lookupStr data (String.mk name) with
        | none => none
        | some v =>
          match substAux data fuel afterRest with
          | none => none
          | some tail => some (v.data ++ tail)
    else
      match substAux data fuel rest with
      | none => none
      | some tail => some (c :: tail)

/-- Models `template.format(**data)` for named placeholders. -/
def renderTemplate (template : String) (data : List (String × String)) : Option String :=
  (substAux data template.data.length template.data).map String.mk

/-- The fallback daily template of `generate_daily_report` (also the default
config's `templates["daily"]`). -/
def defaultDailyTemplate : String :=
  "今日工作总结：\n\n完成事项：\n\x7bcompleted_tasks\x7d\n\n进行中事项：\n\x7bongoing_tasks\x7d\n\n明日计划：\n\x7btomorrow_plan\x7d"

/-- The fallback weekly template of `generate_weekly_report`. -/
def defaultWeeklyTemplate : String :=
  "本周工作总结：\n\n主要成果：\n\x7bachievements\x7d\n\n完成项目：\n\x7bcompleted_projects\x7d\n\n下周计划：\n\x7bnext_week_plan\x7d"

/-- The fallback monthly template of `generate_monthly_report`. -/
def defaultMonthlyTemplate : String :=
  "本月工作总结：\n\n月度成果：\n\x7bmonthly_achievements\x7d\n\n重要里程碑：\n\x7bmilestones\x7d\n\n下月目标：\n\x7bnext_month_goals\x7d"

/-- The common shape of `AIReportGenerator.generate_daily/weekly/monthly_report`:
return `None` when the supplied log list is empty, otherwise the outcome of
`_call_openai_api` on the built prompt (a network call, modelled by the
`apiResult` parameter). -/
def aiGenerateReport (logs : List WorkLog) (apiResult : Option String) : Option String :=
  if logs.isEmpty then none else apiResult

/-- Embeds `ReportGenerator.generate_daily_report` with an explicit target date.
`useAi`/`aiConfigured` model `use_ai and self.ai_generator`; `templates` is the
configured template dict (`templates.get(key, fallback)`).  A `none` on the
template branch models the exception `str.format` would raise on a template
with an unknown placeholder; the source's `None` return only arises on the AI
branch. -/
def generateDailyReport (store : List WorkLog) (targetDate : String) (useAi aiConfigured : Bool)
    (apiResult : Option String) (templates : List (String × String)) : Option String :=
  let logs := getLogsByDateRange store targetDate targetDate
  if useAi && aiConfigured then aiGenerateReport logs apiResult
  else renderTemplate ((lookupStr templates "daily").getD defaultDailyTemplate)
         (formatLogsForTemplate logs)

/-- Embeds `ReportGenerator.generate_weekly_report`, with the target date already
parsed (`strptime`/`strftime` round through `formatDate`): the range is Monday
(`target - weekday(target)` days) through six days later. -/
def generateWeeklyReport (store : List WorkLog) (target : Date) (useAi aiConfigured : Bool)
    (apiResult : Option String) (templates : List (String × String)) : Option String :=
  let startOfWeek := subDays target (weekday target)
  let endOfWeek := addDays startOfWeek 6
  let logs := getLogsByDateRange store (formatDate startOfWeek) (formatDate endOfWeek)
  if useAi && aiConfigured then aiGenerateReport logs apiResult
  else renderTemplate ((lookupStr templates "weekly").getD defaultWeeklyTemplate)
         (formatLogsForTemplate logs)

/-- The month range computed inside `generate_monthly_report`:
start is `target.replace(day=1)`; end steps to the first day of the next month
(rolling the year after December) and subtracts one day. -/
def monthlyRange (target : Date) : Date × Date :=
  let startOfMonth : Date := ⟨target.year, target.month, 1⟩
  let endOfMonth : Date :=
    if target.month == 12 then subDays ⟨target.year + 1, 1, 1⟩ 1
    else subDays ⟨target.year, target.month + 1, 1⟩ 1
  (startOfMonth, endOfMonth)

/-- Embeds `ReportGenerator.generate_monthly_report`, with the target date already
parsed. -/
def generateMonthlyReport (store : List WorkLog) (target : Date) (useAi aiConfigured : Bool)
    (apiResult : Option String) (templates : List (String × String)) : Option String :=
  let range := monthlyRange target
  let logs := getLogsByDateRange store (formatDate range.1) (formatDate range.2)
  if useAi && aiConfigured then aiGenerateReport logs apiResult
  else renderTemplate ((lookupStr templates "monthly").getD defaultMonthlyTemplate)
         (formatLogsForTemplate logs)

/-! ## LLM client retry loop (`ai_generator.py`, `_call_openai_api`) -/

/-- Kind of exception raised by one API attempt, as classified by the handler:
`rateLimit` when `"rate limit" in str(e).lower()`, `apiError` when the message
contains both `"api"` and `"error"`, `otherError` otherwise.  The three
handler branches are tried in that order, so the kinds are exclusive. -/
inductive ErrKind where
  | rateLimit
  | apiError
  | otherError
deriving Repr, DecidableEq

/-- Outcome of one attempt of the provider call inside the `try` block:
either the completion text (after `.strip()`), or an exception. -/
inductive ApiAttempt where
  | success (text : String)
  | failure (kind : ErrKind)
deriving Repr, DecidableEq

/-- Seconds slept after a failed attempt (zero-based `attempt`):
`(2 ** attempt) * 2` for a rate-limit error, `1` otherwise. -/
def sleepFor (kind : ErrKind) (attempt : Nat) : Nat :=
  match kind with
  | .rateLimit => 2 ^ attempt * 2
  | .apiError => 1
  | .otherError => 1

/-- The retry loop of `_call_openai_api`, from attempt number `attempt` with
`remaining` loop iterations left (`remaining = retry_count - attempt`).
Returns the result and the list of sleep durations, in order.  On a failure
with further attempts left (`attempt < retry_count - 1`, i.e. `remaining ≥ 2`)
it sleeps and retries; on the last attempt it returns `None` without sleeping. -/
def callApiGo (outcome : Nat → ApiAttempt) : Nat → Nat → Option String × List Nat
  | _, 0 => (none, [])
  | attempt, remaining + 1 =>
    match outcome attempt with
    | .success text => (some text, [])
    | .failure kind =>
      if remaining == 0 then (none, [])
      else
        let rest := callApiGo outcome (attempt + 1) remaining
        (rest.1, sleepFor kind attempt :: rest.2)

/-- Embeds `_call_openai_api`: run `for attempt in range(retry_count)`, with the
outcome of each attempt given by `outcome`.  Falls through to `return None`
when the loop exhausts (including `retry_count = 0`). -/
def callOpenaiApi (outcome : Nat → ApiAttempt) (retryCount : Nat) : Option String × List Nat :=
  callApiGo outcome 0 retryCount

/-! ## Feishu deadlines (`feishu_client.py`, `get_report_deadlines`) -/

/-- A wall-clock instant: a calendar date plus seconds into the day
(second granularity; the source zeroes microseconds on every bound it builds). -/
structure DateTime where
  date : Date
  secs : Nat
deriving Repr, DecidableEq

/-- Strict `datetime` comparison: lexicographic on (year, month, day), then
on the time of day. -/
def dtLt (a b : DateTime) : Bool :=
  a.date.year < b.date.year
  || (a.date.year == b.date.year
      && (a.date.month < b.date.month
          || (a.date.month == b.date.month
              && (a.date.day < b.date.day
                  || (a.date.day == b.date.day && a.secs < b.secs)))))

/-- Python `datetime <=`. -/
def dtLe (a b : DateTime) : Bool :=
  dtLt a b || a == b

/-- One of the three report cadences. -/
inductive Cadence where
  | daily
  | weekly
  | monthly
deriving Repr, DecidableEq

/-- The dict `get_report_deadlines` returns (the fields the callers use). -/
structure DeadlineInfo where
  deadline : DateTime
  submitTime : DateTime
  shouldSubmit : Bool
deriving Repr, DecidableEq

/-- Embeds `FeishuClient.get_report_deadlines`:
* daily — deadline today 18:00, submit window opens two hours earlier (16:00),
  `should_submit` iff `submit_time <= now <= deadline`;
* weekly — the qualifying day is Friday (`weekday == 4`); deadline Friday
  23:59:59, window opens 20:00; `should_submit` additionally requires today to
  be Friday;
* monthly — the qualifying day is the month's last calendar day, found by
  `now.replace(day=28) + timedelta(days=4)` then stepping back `.day` days;
  deadline 23:59:59 of that day, window opens 20:00, `should_submit` requires
  `now.date() == last_day.date()` and the window. -/
def getReportDeadlines (c : Cadence) (now : DateTime) : DeadlineInfo :=
  match c with
  | .daily =>
    let deadline : DateTime := ⟨now.date, 18 * 3600⟩
    let submitTime : DateTime := ⟨now.date, 16 * 3600⟩
    ⟨deadline, submitTime, dtLe submitTime now && dtLe now deadline⟩
  | .weekly =>
    let wd := weekday now.date
    let daysUntilFriday := (4 + 7 - wd) % 7
    let friday := if wd == 4 then now.date else addDays now.date daysUntilFriday
    let deadline : DateTime := ⟨friday, 23 * 3600 + 59 * 60 + 59⟩
    let submitTime : DateTime := ⟨friday, 20 * 3600⟩
    ⟨deadline, submitTime, wd == 4 && dtLe submitTime now && dtLe now deadline⟩
  | .monthly =>
    let nextMonth := addDays ⟨now.date.year, now.date.month, 28⟩ 4
    let lastDay := subDays nextMonth nextMonth.day
    let deadline : DateTime := ⟨lastDay, 23 * 3600 + 59 * 60 + 59⟩
    let submitTime : DateTime := ⟨lastDay, 20 * 3600⟩
    ⟨deadline, submitTime, now.date == lastDay && dtLe submitTime now && dtLe now deadline⟩

/-! ## Scheduler check step (`feishu_scheduler.py` with `feishu_client.py`) -/

/-- The `submit_status` section of the configuration.  The per-cadence
last-submit keys are absent until first written (`Option`). -/
structure SubmitStatus where
  lastDailySubmit : Option String
  lastWeeklySubmit : Option String
  lastMonthlySubmit : Option String
  lastSubmitDate : String
  submitCount : Nat
deriving Repr, DecidableEq

/-- Scheduler-visible state: the in-memory `submit_status` and the copy last
written to disk. -/
structure SchedulerState where
  memStatus : SubmitStatus
  diskStatus : SubmitStatus
deriving Repr, DecidableEq

/-- Default `submit_status` (from `get_default_config`). -/
def initialSubmitStatus : SubmitStatus :=
  { lastDailySubmit := none, lastWeeklySubmit := none, lastMonthlySubmit := none,
    lastSubmitDate := "", submitCount := 0 }

/-- Fresh scheduler state: memory and disk agree on the defaults. -/
def initialSchedulerState : SchedulerState :=
  { memStatus := initialSubmitStatus, diskStatus := initialSubmitStatus }

/-- Embeds `FeishuScheduler._update_submit_status` for a successful submission:
stamps today's date string into the per-cadence field, sets
`last_submit_date`, and increments `submit_count` — all on the in-memory
dict.  The final `self.config_manager.save_config(config)` passes a positional
argument to `ConfigManager.save_config(self)`, which takes none, so the call
raises `TypeError`; the surrounding `except` swallows it and the disk copy is
never written. -/
def updateSubmitStatus (now : DateTime) (c : Cadence) (st : SchedulerState) : SchedulerState :=
  let today := formatDate now.date
  let mem := st.memStatus
  let mem :=
    match c with
    | .daily => { mem with lastDailySubmit := some today }
    | .weekly => { mem with lastWeeklySubmit := some today }
    | .monthly => { mem with lastMonthlySubmit := some today }
  let mem := { mem with lastSubmitDate := today, submitCount := mem.submitCount + 1 }
  { memStatus := mem, diskStatus := st.diskStatus }

/-- Embeds `FeishuClient.auto_submit_report`: re-checks `should_submit` for the
cadence and, inside the window, sends the report (`sendOk` models the
`send_report` round trip); outside the window it refuses. -/
def autoSubmitReport (now : DateTime) (sendOk : Bool) (c : Cadence) : Bool :=
  if (getReportDeadlines c now).shouldSubmit then sendOk else false

/-- One cadence of `FeishuClient.check_and_auto_submit`: when the cadence's
window is open and the generated content is non-empty (Python truthiness:
`None` and `""` both skip), attempt the submission and record the result.
Nothing here consults the stored `last_*_submit` fields. -/
def checkCadence (now : DateTime) (gen : Cadence → Option String) (sendOk : Bool)
    (c : Cadence) : Option (Cadence × Bool) :=
  if (getReportDeadlines c now).shouldSubmit then
    match gen c with
    | some content => if content.isEmpty then none else some (c, autoSubmitReport now sendOk c)
    | none => none
  else none

/-- Embeds `FeishuClient.check_and_auto_submit`: the three cadences in order. -/
def checkAndAutoSubmit (now : DateTime) (gen : Cadence → Option String) (sendOk : Bool) :
    List (Cadence × Bool) :=
  [Cadence.daily, Cadence.weekly, Cadence.monthly].filterMap (checkCadence now gen sendOk)

/-- Embeds `FeishuScheduler._check_and_submit_reports` (the per-check body, with the
client initialised and auto-report enabled): run `check_and_auto_submit`, then
call `_update_submit_status` for each successful result. -/
def checkAndSubmitReports (now : DateTime) (gen : Cadence → Option String) (sendOk : Bool)
    (st : SchedulerState) : SchedulerState × List (Cadence × Bool) :=
  let results := checkAndAutoSubmit now gen sendOk
  (results.foldl (fun s r => if r.2 then updateSubmitStatus now r.1 s else s) st, results)

/-! ## JSON documents and the config merge (`config_manager.py`) -/

/-- A JSON value.  Numbers are exact decimals `mantissa × 10⁻ᵉˣᵖ` (JSON
numerals are decimal strings; the merge never computes with them).  Objects
are ordered key/value lists, as Python dicts are ordered. -/
inductive Json where
  | null
  | bool (b : Bool)
  | num (mantissa : Int) (exp10 : Nat)
  | str (s : String)
  | arr (elems : List Json)
  | obj (fields : List (String × Json))

/-- Whether a value is an object (`isinstance(value, dict)`). -/
def Json.isObj : Json → Bool
  | .obj _ => true
  | _ => false

/-- Dict read: first binding of the key (unique in a well-formed dict). -/
def lookupJ : List (String × Json) → String → Option Json
  | [], _ => none
  | (k, v) :: rest, key => if k == key then some v else lookupJ rest key

/-- Dict write `d[key] = v`: replace the binding in place, else append. -/
def setJ : List (String × Json) → String → Json → List (String × Json)
  | [], key, v => [(key, v)]
  | (k, w) :: rest, key, v =>
    if k == key then (k, v) :: rest else (k, w) :: setJ rest key v

/-- Whether `key` occurs in the field list. -/
def keyMem (key : String) : List (String × Json) → Bool
  | [] => false
  | (k, _) :: rest => k == key || keyMem key rest

mutual
/-- Embeds `ConfigManager._merge_config` on a single value position: recurse when the
default and loaded values are both dicts, otherwise the loaded value wins. -/
def mergeVal : Json → Json → Json
  | .obj df, .obj lf => .obj (mergeFields df lf)
  | _, v => v

/-- Embeds `ConfigManager._merge_config(default, loaded)`: start from a copy of the
default dict and iterate the loaded items in order, assigning each key (the
first argument accumulates `result`). -/
def mergeFields : List (String × Json) → List (String × Json) → List (String × Json)
  | result, [] => result
  | result, (k, v) :: rest =>
    match lookupJ result k with
    | some dv => mergeFields (setJ result k (mergeVal dv v)) rest
    | none => mergeFields (setJ result k v) rest
end

mutual
/-- Well-formedness of a JSON value as produced by `json.load`: every object
has pairwise-distinct keys (arrays are not traversed by the merge, so their
elements need no constraint). -/
def Json.wf : Json → Bool
  | .obj fields => fieldsWf fields
  | _ => true

/-- Well-formedness of an object's field list. -/
def fieldsWf : List (String × Json) → Bool
  | [] => true
  | (k, v) :: rest => !keyMem k rest && v.wf && fieldsWf rest
end

mutual
/-- Completeness `valComplete d l`: the loaded value `l` already covers the default value
`d` — whenever both are dicts, every default key is present, recursively.
(When either side is not a dict the merge takes `l` wholesale, so nothing is
required.) -/
def valComplete : Json → Json → Bool
  | .obj df, .obj lf => fieldsComplete df lf
  | _, _ => true

/-- Every default field key is present in the loaded fields, recursively. -/
def fieldsComplete : List (String × Json) → List (String × Json) → Bool
  | [], _ => true
  | (k, dv) :: rest, l =>
    (match lookupJ l k with
     | some lv => valComplete dv lv
     | none => false) && fieldsComplete rest l
end

/-- Follow a key path into nested objects. -/
def lookupPath : Json → List String → Option Json
  | j, [] => some j
  | .obj fields, k :: ks =>
    (match lookupJ fields k with
     | some v => lookupPath v ks
     | none => none)
  | _, _ :: _ => none

/-- Embeds `ConfigManager.get_default_config`: the hardcoded default configuration
document. -/
def getDefaultConfig : List (String × Json) :=
  [("work_logs", .arr []),
   ("templates", .obj
     [("daily", .str defaultDailyTemplate),
      ("weekly", .str defaultWeeklyTemplate),
      ("monthly", .str defaultMonthlyTemplate)]),
   ("settings", .obj
     [("reminder_enabled", .bool true),
      ("reminder_interval", .num 60 0),
      ("work_days", .arr [.str "周一", .str "周二", .str "周三", .str "周四", .str "周五"]),
      ("work_start_time", .str "09:00"),
      ("work_end_time", .str "18:00"),
      ("auto_submit_time", .str "20:00"),
      ("startup_with_system", .bool false),
      ("minimize_to_tray", .bool true),
      ("show_notifications", .bool true)]),
   ("feishu_config", .obj
     [("enabled", .bool false),
      ("app_id", .str ""),
      ("app_secret", .str ""),
      ("chat_id", .str ""),
      ("auto_report_enabled", .bool false),
      ("check_interval", .num 30 0),
      ("daily_advance_hours", .num 2 0),
      ("weekly_submit_time", .str "20:00"),
      ("monthly_submit_time", .str "20:00")]),
   ("ai_config", .obj
     [("enabled", .bool false),
      ("provider", .str "DeepSeek"),
      ("api_key", .str ""),
      ("api_base_url", .str "https://api.deepseek.com/v1"),
      ("model", .str "deepseek-chat"),
      ("temperature", .num 7 1),
      ("max_tokens", .num 1000 0),
      ("timeout", .num 30 0),
      ("retry_count", .num 3 0),
      ("system_prompt", .str "你是一个专业的工作报告助手，请根据提供的工作日志生成简洁、专业的工作报告。")]),
   ("ai_providers_config", .obj
     [("DeepSeek", .obj
        [("api_key", .str ""),
         ("api_base_url", .str "https://api.deepseek.com/v1"),
         ("model", .str "deepseek-chat")]),
      ("智谱AI", .obj
        [("api_key", .str ""),
         ("api_base_url", .str "https://open.bigmodel.cn/api/paas/v4"),
         ("model", .str "glm-4")]),
      ("百度文心", .obj
        [("api_key", .str ""),
         ("api_base_url", .str "https://aip.baidubce.com/rpc/2.0/ai_custom/v1/wenxinworkshop/chat"),
         ("model", .str "ernie-bot-turbo")]),
      ("阿里通义", .obj
        [("api_key", .str ""),
         ("api_base_url", .str "https://dashscope.aliyuncs.com/api/v1"),
         ("model", .str "qwen-turbo")]),
      ("Doubao", .obj
        [("api_key", .str ""),
         ("api_base_url", .str "https://ark.cn-beijing.volces.com/api/v3"),
         ("model", .str "doubao-lite-4k")])]),
   ("report_history", .arr []),
   ("submit_status", .obj
     [("last_submit_date", .str ""),
      ("auto_submit_enabled", .bool true),
      ("submit_count", .num 0 0)])]

/-! ## Loading the configuration file (`load_config`) -/

/-- The state the configuration file can be in when `load_config` runs.
`vanished` is the race where `os.path.exists` succeeded but `open` raises
`FileNotFoundError`; `unreadable` is any other exception while opening,
reading or decoding the file (e.g. `PermissionError`, `UnicodeDecodeError`)
— exceptions *not* named in the `except (json.JSONDecodeError,
FileNotFoundError)` clause. -/
inductive ConfigFileState where
  | absent
  | vanished
  | unreadable
  | malformed
  | parsed (doc : List (String × Json))

/-- A Python exception escaping to the caller. -/
inductive PyError where
  | osError
  | typeError
deriving Repr, DecidableEq

/-- Embeds `ConfigManager.load_config`: return the defaults when the file is absent;
otherwise read and parse it, merging the defaults underneath the loaded
document; `JSONDecodeError` and `FileNotFoundError` are caught and fall back
to the defaults, while any other exception propagates. -/
def loadConfig : ConfigFileState → Except PyError (List (String × Json))
  | .absent => .ok getDefaultConfig
  | .vanished => .ok getDefaultConfig
  | .malformed => .ok getDefaultConfig
  | .parsed doc => .ok (mergeFields getDefaultConfig doc)
  | .unreadable => .error .osError

/-! ## Claim C1 — `get_logs_by_date_range` filters and sorts -/

/-- C1: for every stored log list and date pair, `get_logs_by_date_range`
returns exactly the entries whose date string satisfies
`start_date <= date <= end_date` (inclusive lexicographic string comparison) —
same multiset as the filtered list, membership exactly the in-range entries of
the store — sorted ascending by date. -/
theorem c1_range_query_exact_and_sorted (logs : List WorkLog) (s e : String) :
    List.Perm (getLogsByDateRange logs s e)
      (logs.filter (fun log => decide (s ≤ log.date) && decide (log.date ≤ e)))
    ∧ List.Sorted logDateLe (getLogsByDateRange logs s e)
    ∧ ∀ log : WorkLog,
        log ∈ getLogsByDateRange logs s e ↔ log ∈ logs ∧ s ≤ log.date ∧ log.date ≤ e := by
  refine ⟨List.perm_insertionSort _ _, List.sorted_insertionSort _ _, fun log => ?_⟩
  unfold getLogsByDateRange
  rw [(List.perm_insertionSort logDateLe _).mem_iff, List.mem_filter]
  simp

/-! ## Claim C7 — monthly report range covers the whole month -/

/-- C7: for every valid target date, the month range of
`generate_monthly_report` runs from the first calendar day of the target's
month to the true last calendar day of that month (`daysInMonth`, which is 28
or 29 for February by the leap rule and 30/31 elsewhere). -/
theorem c7_monthly_range_is_full_month (t : Date) (h : t.valid) :
    monthlyRange t =
      (⟨t.year, t.month, 1⟩, ⟨t.year, t.month, daysInMonth t.year t.month⟩) := by
  obtain ⟨hy, hm1, hm12, hd1, hd2⟩ := h
  unfold monthlyRange
  by_cases h12 : t.month = 12
  · simp [h12, subDays, prevDay, daysInMonth, isLeapYear]
  · have hne : (t.month == 12) = false := by simp [h12]
    have hlt : 1 < t.month + 1 := by omega
    simp only [hne, Bool.false_eq_true, if_false, subDays, prevDay]
    simp [hlt, Nat.add_sub_cancel]

/-- Witness for C7 at concrete inputs: February 2024 (leap year, ends on the
29th) and February 2023 (ends on the 28th). -/
theorem c7_witness :
    (⟨2024, 2, 15⟩ : Date).valid
    ∧ monthlyRange ⟨2024, 2, 15⟩ = (⟨2024, 2, 1⟩, ⟨2024, 2, 29⟩)
    ∧ (⟨2023, 2, 15⟩ : Date).valid
    ∧ monthlyRange ⟨2023, 2, 15⟩ = (⟨2023, 2, 1⟩, ⟨2023, 2, 28⟩) := by
  refine ⟨by decide, ?_, by decide, ?_⟩
  · have h := c7_monthly_range_is_full_month ⟨2024, 2, 15⟩ (by decide)
    simpa using h
  · have h := c7_monthly_range_is_full_month ⟨2023, 2, 15⟩ (by decide)
    simpa using h

/-! ## Claim C10 — `update_work_log` on a missing identifier -/

/-- C10: when no stored entry carries the requested identifier,
`update_work_log` returns `False`, leaves the store unchanged, and does not
call `save_config`. -/
theorem c10_update_missing_id_no_change (store : List WorkLog) (logId : Nat)
    (data : WorkLogData) (now : String) (saveOk : Bool)
    (h : ∀ log ∈ store, log.id ≠ logId) :
    updateWorkLog store logId data now saveOk = (store, false, false) := by
  have hnone : updateWorkLogList logId data now store = none := by
    induction store with
    | nil => rfl
    | cons log rest ih =>
      have h1 : log.id ≠ logId := h log (by simp)
      have hb : (log.id == logId) = false := by simp [h1]
      have hr := ih (fun l hl => h l (by simp [hl]))
      simp [updateWorkLogList, hb, hr]
  simp [updateWorkLog, hnone]

/-- Witness for C10: a one-entry store and an identifier (99) not present. -/
theorem c10_witness :
    (∀ log ∈ [({ id := 1, date := "2024-06-03", content := "a", logType := "工作",
                 priority := "中", status := "进行中", tags := [],
                 createdAt := "t", updatedAt := none } : WorkLog)], log.id ≠ 99)
    ∧ updateWorkLog [{ id := 1, date := "2024-06-03", content := "a", logType := "工作",
                       priority := "中", status := "进行中", tags := [],
                       createdAt := "t", updatedAt := none }] 99
        { date := "x", content := "b", logType := "工作", priority := "中",
          status := "进行中", tags := [], createdAt := "t2" } "t3" true
        = ([{ id := 1, date := "2024-06-03", content := "a", logType := "工作",
              priority := "中", status := "进行中", tags := [],
              createdAt := "t", updatedAt := none }], false, false) :=
  ⟨by decide,
   c10_update_missing_id_no_change _ 99 _ "t3" true (by decide)⟩

/-! ## Claim C3 — retry backoff of `_call_openai_api` -/

/-- When every attempt fails with the same error kind, the loop returns `None`
after `remaining` attempts and sleeps `sleepFor kind attempt` between
consecutive attempts (no sleep after the last). -/
theorem callApiGo_all_failures (k : ErrKind) (outcome : Nat → ApiAttempt)
    (h : ∀ i, outcome i = .failure k) :
    ∀ r a, callApiGo outcome a r
      = (none, (List.range (r - 1)).map (fun i => sleepFor k (a + i))) := by
  intro r
  induction r with
  | zero => intro a; simp [callApiGo]
  | succ n ih =>
    intro a
    rw [callApiGo, h a]
    cases n with
    | zero => simp
    | succ m =>
      have hm : ((m + 1 : Nat) == 0) = false := by simp
      rw [hm]
      simp only [Bool.false_eq_true, if_false, ih (a + 1)]
      refine Prod.ext rfl ?_
      simp only [Nat.succ_sub_one, List.range_succ_eq_map, List.map_cons, List.map_map]
      refine congrArg₂ _ (by simp) ?_
      refine List.map_congr_left fun i _ => ?_
      simp only [Function.comp]
      congr 1
      omega

/-- C3 counterexample: with `retry_count = 3` and every attempt hitting the
rate limit, the sleeps before the retries are 2 and 4 seconds — not the 4 and
8 seconds the claim's `4, 8, 16, ...` enumeration asserts (`2^0 * 2 = 2`). -/
theorem c3_counterexample :
    callOpenaiApi (fun _ => .failure .rateLimit) 3 = (none, [2, 4])
    ∧ [2, 4] ≠ ([4, 8] : List Nat) :=
  ⟨rfl, by decide⟩

/-- C3 (amended): when every attempt fails on the rate limit, the sleeps
before successive retries are `2, 4, 8, ...` seconds — that is `2^attempt * 2`
with `attempt` zero-based, so the first wait is 2 seconds; when every attempt
fails with any other error the client sleeps 1 second between attempts; in
both cases after `retry_count` attempts it returns `None` instead of raising. -/
theorem c3_backoff_sequence (rc : Nat) (rlOutcome otherOutcome : Nat → ApiAttempt)
    (hr : ∀ i, rlOutcome i = .failure .rateLimit)
    (ho : ∀ i, otherOutcome i = .failure .otherError) :
    callOpenaiApi rlOutcome rc = (none, (List.range (rc - 1)).map (fun a => 2 ^ a * 2))
    ∧ callOpenaiApi otherOutcome rc = (none, List.replicate (rc - 1) 1) := by
  constructor
  · rw [callOpenaiApi, callApiGo_all_failures .rateLimit rlOutcome hr rc 0]
    simp [sleepFor]
  · rw [callOpenaiApi, callApiGo_all_failures .otherError otherOutcome ho rc 0]
    simp [sleepFor, List.eq_replicate_iff]

/-- C3 witness at `retry_count = 4`. -/
theorem c3_witness :
    callOpenaiApi (fun _ => .failure .rateLimit) 4 = (none, [2, 4, 8])
    ∧ callOpenaiApi (fun _ => .failure .otherError) 4 = (none, [1, 1, 1]) := by
  have h := c3_backoff_sequence 4 (fun _ => .failure .rateLimit)
    (fun _ => .failure .otherError) (fun _ => rfl) (fun _ => rfl)
  exact ⟨by rw [h.1]; rfl, by rw [h.2]; rfl⟩

/-! ## Claim C4 — identifier uniqueness under store operations -/

/-- A fixed sample payload for counterexample/witness scenarios. -/
def sampleLogData (c : String) : WorkLogData :=
  { date := "2024-06-03", content := c, logType := "工作", priority := "中",
    status := "进行中", tags := [], createdAt := "2024-06-03T10:00:00" }

/-- The operation sequence that breaks uniqueness: two inserts, delete the
first entry, insert again (`len + 1` then reuses identifier 2). -/
def c4ops : List StoreOp :=
  [.add (sampleLogData "a") "t1", .add (sampleLogData "b") "t2",
   .delete 1, .add (sampleLogData "c") "t3"]

/-- C4 counterexample: after add, add, delete 1, add from the empty store the
identifiers are `[2, 2]` — not pairwise distinct, so identifier uniqueness is
not an invariant preserved by every operation. -/
theorem c4_counterexample :
    ((runOps [] c4ops).map (·.id) = [2, 2])
    ∧ ¬ ((runOps [] c4ops).map (·.id)).Nodup := by
  constructor
  · rfl
  · decide

/-- A successful `update_work_log` scan leaves the identifier sequence intact
(the replacement carries the matched identifier). -/
theorem updateWorkLogList_map_id (logId : Nat) (data : WorkLogData) (now : String) :
    ∀ (s s' : List WorkLog), updateWorkLogList logId data now s = some s' →
      s'.map (·.id) = s.map (·.id) := by
  intro s
  induction s with
  | nil => intro s' h; simp [updateWorkLogList] at h
  | cons log rest ih =>
    intro s' h
    rw [updateWorkLogList] at h
    by_cases hb : (log.id == logId) = true
    · rw [if_pos hb] at h
      have hid : log.id = logId := by simpa using hb
      injection h with h2
      subst h2
      simp [replaceLog, hid]
    · rw [if_neg hb] at h
      cases hrec : updateWorkLogList logId data now rest with
      | none => rw [hrec] at h; simp at h
      | some rest' =>
        rw [hrec] at h
        simp only [Option.map_some'] at h
        injection h with h2
        subst h2
        simp [ih rest' hrec]

/-- Running only inserts and updates from the empty store keeps the identifier
sequence equal to `1, 2, …, n`. -/
theorem runOps_ids_no_delete (ops : List StoreOp) (h : ∀ op ∈ ops, op.isDelete = false) :
    ∀ s : List WorkLog, s.map (·.id) = List.range' 1 s.length →
      (runOps s ops).map (·.id) = List.range' 1 (runOps s ops).length := by
  induction ops with
  | nil => intro s hs; simpa [runOps] using hs
  | cons op rest ih =>
    intro s hs
    have hop : op.isDelete = false := h op (by simp)
    have hrest : ∀ o ∈ rest, o.isDelete = false := fun o ho => h o (by simp [ho])
    have hstep : (applyOp s op).map (·.id) = List.range' 1 (applyOp s op).length := by
      cases op with
      | add data now =>
        simp only [applyOp, addWorkLog, List.map_append, List.map_cons, List.map_nil,
          List.length_append, List.length_cons, List.length_nil, Nat.add_zero, Nat.zero_add]
        rw [hs, List.range'_1_concat]
        simp [Nat.add_comm]
      | update logId data now =>
        cases hu : updateWorkLogList logId data now s with
        | none => simpa [applyOp, updateWorkLog, hu] using hs
        | some s2 =>
          have hmap := updateWorkLogList_map_id logId data now s s2 hu
          have hlen : s2.length = s.length := by
            have := congrArg List.length hmap; simpa using this
          simp only [applyOp, updateWorkLog, hu]
          rw [hmap, hlen, hs]
      | delete logId => simp [StoreOp.isDelete] at hop
    have := ih hrest (applyOp s op) hstep
    simpa [runOps, List.foldl_cons] using this

/-- C4 (amended): for every sequence of `add_work_log` and `update_work_log`
operations starting from an empty store — no deletions — the identifiers of
the stored entries remain pairwise distinct (they are exactly `1..n`, with new
identifiers assigned as `len(work_logs) + 1` at insert time);
`delete_work_log` can break this invariant. -/
theorem c4_ids_nodup_without_delete (ops : List StoreOp)
    (h : ∀ op ∈ ops, op.isDelete = false) :
    ((runOps [] ops).map (·.id)).Nodup := by
  have hids := runOps_ids_no_delete ops h [] (by simp)
  rw [hids]
  exact List.nodup_range' 1 _

/-- A delete-free operation sequence for the C4 witness. -/
def c4wops : List StoreOp :=
  [.add (sampleLogData "a") "t1", .add (sampleLogData "b") "t2",
   .update 1 (sampleLogData "c") "t3"]

/-- Witness for the amended C4 at a concrete delete-free sequence. -/
theorem c4_witness :
    (∀ op ∈ c4wops, op.isDelete = false)
    ∧ ((runOps [] c4wops).map (·.id)).Nodup :=
  ⟨by decide, c4_ids_nodup_without_delete c4wops (by decide)⟩

/-! ## Claim C6 — `load_config` behaviour per file state -/

/-- C6 counterexample: when the file exists but reading it raises an exception
other than `FileNotFoundError`/`JSONDecodeError` (e.g. `PermissionError`, or
`UnicodeDecodeError` from a non-UTF-8 file), the `except` clause of
`load_config` does not catch it and the exception propagates to the caller —
refuting "never raises an exception for any I/O reason". -/
theorem c6_counterexample :
    loadConfig .unreadable = Except.error .osError := rfl

/-- C6 (amended): `load_config` returns a configuration dictionary without
raising when the file is absent, when opening it raises `FileNotFoundError`,
when the JSON is malformed (defaults in all three cases), or when it parses
(defaults merged beneath the loaded document); a read failure of any other
kind propagates as an exception. -/
theorem c6_load_never_raises_except_io (st : ConfigFileState)
    (h : st ≠ .unreadable) :
    loadConfig st = .ok (match st with
      | .parsed doc => mergeFields getDefaultConfig doc
      | _ => getDefaultConfig) := by
  cases st with
  | absent => rfl
  | vanished => rfl
  | malformed => rfl
  | parsed doc => rfl
  | unreadable => exact absurd rfl h

/-- Witness for the amended C6 at the absent-file state. -/
theorem c6_witness :
    loadConfig .absent = .ok getDefaultConfig :=
  c6_load_never_raises_except_io .absent (fun h => ConfigFileState.noConfusion h)

/-! ## Claim C2 — generators on an empty date range -/

/-- C2 counterexample: with an empty store (so no entry falls in the range)
and AI generation off, `generate_daily_report` returns a filled template
string, not `None` — the "returns nothing when no entries exist in range"
behaviour belongs to the AI path only. -/
theorem c2_counterexample :
    generateDailyReport [] "2024-06-03" false false none [] ≠ none := by
  decide

/-- C2 (amended): when no stored entry falls in the computed range, the
daily/weekly/monthly generators return `None` exactly on the AI path
(`use_ai` with a configured AI generator); on the template path they return a
filled template string (placeholders filled with the "no record" defaults),
never `None`.  Stated with the default templates (empty template dict). -/
theorem c2_empty_range_generators (store : List WorkLog) (targetDate : String)
    (target : Date) (aiC : Bool) (apiResult : Option String)
    (h1 : getLogsByDateRange store targetDate targetDate = [])
    (h2 : getLogsByDateRange store (formatDate (subDays target (weekday target)))
            (formatDate (addDays (subDays target (weekday target)) 6)) = [])
    (h3 : getLogsByDateRange store (formatDate (monthlyRange target).1)
            (formatDate (monthlyRange target).2) = []) :
    generateDailyReport store targetDate true true apiResult [] = none
    ∧ generateWeeklyReport store target true true apiResult [] = none
    ∧ generateMonthlyReport store target true true apiResult [] = none
    ∧ (generateDailyReport store targetDate false aiC apiResult []).isSome = true
    ∧ (generateWeeklyReport store target false aiC apiResult []).isSome = true
    ∧ (generateMonthlyReport store target false aiC apiResult []).isSome = true := by
  refine ⟨?_, ?_, ?_, ?_, ?_, ?_⟩ <;>
    simp only [generateDailyReport, generateWeeklyReport, generateMonthlyReport,
      h1, h2, h3, Bool.true_and, Bool.false_and, if_true, if_false,
      Bool.and_self, aiGenerateReport, List.isEmpty_nil, if_pos] <;>
    decide

/-- Witness for the amended C2: empty store, target 2024-06-03. -/
theorem c2_witness :
    generateDailyReport [] "2024-06-03" true true (some "r") [] = none
    ∧ (generateDailyReport [] "2024-06-03" false false (some "r") []).isSome = true := by
  have h := c2_empty_range_generators [] "2024-06-03" ⟨2024, 6, 3⟩ false (some "r")
    (by decide) (by decide) (by decide)
  exact ⟨h.1, h.2.2.2.1⟩

/-! ## Claim C5 — scheduler submit-status update and duplicate suppression -/

/-- Report contents for the C5 scenario (`report_generator_func`). -/
def c5gen : Cadence → Option String
  | .daily => some "今日工作总结"
  | _ => some "周期报告"

/-- First scheduler check: Monday 2024-06-03 at 16:00 (inside the daily
window), send succeeding. -/
def c5run1 : SchedulerState × List (Cadence × Bool) :=
  checkAndSubmitReports ⟨⟨2024, 6, 3⟩, 57600⟩ c5gen true initialSchedulerState

/-- Second scheduler check five minutes later on the same calendar day. -/
def c5run2 : SchedulerState × List (Cadence × Bool) :=
  checkAndSubmitReports ⟨⟨2024, 6, 3⟩, 57900⟩ c5gen true c5run1.1

/-- C5, evaluated at the failing input: the first check submits the daily
report successfully and records "2024-06-03" in the in-memory per-cadence
last-submit field — but the disk copy never changes (the
`save_config(config)` call raises `TypeError` and is swallowed), and the
second check on the same calendar day submits the daily report again: neither
`check_and_auto_submit` nor `_check_and_submit_reports` ever reads the
`last_*_submit` fields, so there is no duplicate suppression. -/
theorem c5_no_duplicate_suppression_eval :
    c5run1.2 = [(.daily, true)]
    ∧ c5run1.1.memStatus.lastDailySubmit = some "2024-06-03"
    ∧ c5run1.1.memStatus.submitCount = 1
    ∧ c5run1.1.diskStatus = initialSubmitStatus
    ∧ c5run2.2 = [(.daily, true)]
    ∧ c5run2.1.memStatus.submitCount = 2 := by
  decide

/-! ## Claim C8 — `should_submit` windows -/

/-- On equal dates, `datetime <=` is the time-of-day comparison. -/
theorem dtLe_same_date (d : Date) (s t : Nat) :
    dtLe ⟨d, s⟩ ⟨d, t⟩ = true ↔ s ≤ t := by
  simp [dtLe, dtLt, beq_iff_eq, DateTime.mk.injEq]
  omega

/-- Four `+ timedelta(days=1)` steps. -/
theorem addDays_four (d : Date) : addDays d 4 = nextDay (nextDay (nextDay (nextDay d))) := rfl

/-- One backward day step. -/
theorem subDays_one (d : Date) : subDays d 1 = prevDay d := rfl

/-- Two backward day steps. -/
theorem subDays_two (d : Date) : subDays d 2 = prevDay (prevDay d) := rfl

/-- Three backward day steps. -/
theorem subDays_three (d : Date) : subDays d 3 = prevDay (prevDay (prevDay d)) := rfl

/-- Four backward day steps. -/
theorem subDays_four (d : Date) : subDays d 4 = prevDay (prevDay (prevDay (prevDay d))) := rfl

/-- The monthly branch's `now.replace(day=28) + timedelta(days=4)` followed by
subtracting that date's `.day` days lands exactly on the last calendar day of
`now`'s month. -/
theorem monthly_last_day (y m : Nat) (h1 : 1 ≤ m) (h2 : m ≤ 12) :
    subDays (addDays ⟨y, m, 28⟩ 4) (addDays ⟨y, m, 28⟩ 4).day
      = ⟨y, m, daysInMonth y m⟩ := by
  interval_cases m <;>
    by_cases hl : isLeapYear y = true <;>
    simp [addDays_four, nextDay, prevDay, daysInMonth,
          subDays_one, subDays_two, subDays_three, subDays_four, hl]

/-- C8: `should_submit`
* for the daily cadence holds exactly when the current time lies in
  `[deadline - 2h, deadline]` = `[16:00:00, 18:00:00]` of the current day
  (so it is false one second outside either bound);
* for the weekly cadence is false on any day other than Friday, the week's
  last business day, whatever the time of day;
* for the monthly cadence is false on any day other than the month's last
  calendar day, whatever the time of day. -/
theorem c8_submission_windows (now : DateTime) (hv : now.date.valid) :
    ((getReportDeadlines .daily now).shouldSubmit = true ↔
        16 * 3600 ≤ now.secs ∧ now.secs ≤ 18 * 3600)
    ∧ (weekday now.date ≠ 4 → (getReportDeadlines .weekly now).shouldSubmit = false)
    ∧ (now.date.day ≠ daysInMonth now.date.year now.date.month →
        (getReportDeadlines .monthly now).shouldSubmit = false) := by
  obtain ⟨⟨y, m, day⟩, secs⟩ := now
  obtain ⟨hy, hm1, hm2, hd1, hd2⟩ := hv
  refine ⟨?_, ?_, ?_⟩
  · rw [getReportDeadlines]
    simp only [Bool.and_eq_true, dtLe_same_date]
  · intro h4
    rw [getReportDeadlines]
    simp [h4]
  · intro hd
    rw [getReportDeadlines]
    have hl := monthly_last_day y m hm1 hm2
    simp only at hl hd
    rw [hl]
    have hne : ((⟨y, m, day⟩ : Date) == ⟨y, m, daysInMonth y m⟩) = false := by
      simp [beq_iff_eq, Date.mk.injEq, hd]
    simp [hne]

/-- Witness for C8 at Monday 2024-06-03 16:00:00: the daily window is open,
while the weekly (not Friday) and monthly (not the 30th) cadences refuse. -/
theorem c8_witness :
    (⟨2024, 6, 3⟩ : Date).valid
    ∧ (getReportDeadlines .daily ⟨⟨2024, 6, 3⟩, 57600⟩).shouldSubmit = true
    ∧ (getReportDeadlines .weekly ⟨⟨2024, 6, 3⟩, 57600⟩).shouldSubmit = false
    ∧ (getReportDeadlines .monthly ⟨⟨2024, 6, 3⟩, 57600⟩).shouldSubmit = false := by
  have h := c8_submission_windows ⟨⟨2024, 6, 3⟩, 57600⟩ (by decide)
  exact ⟨by decide, h.1.mpr (by decide), h.2.1 (by decide), h.2.2 (by decide)⟩

/-! ## Claim C9 — the config merge keeps loaded values -/

/-- Reading back the key just written. -/
theorem lookupJ_setJ_self (m : List (String × Json)) (k : String) (v : Json) :
    lookupJ (setJ m k v) k = some v := by
  induction m with
  | nil => simp [setJ, lookupJ]
  | cons kv rest ih =>
    obtain ⟨k0, w⟩ := kv
    by_cases h : (k0 == k) = true
    · simp [setJ, h, lookupJ, (by simpa using h : k0 = k)]
    · simp [setJ, h, lookupJ, ih]

/-- Writing one key leaves the other keys' lookups unchanged. -/
theorem lookupJ_setJ_ne (m : List (String × Json)) (k key : String) (v : Json)
    (h : (k == key) = false) :
    lookupJ (setJ m k v) key = lookupJ m key := by
  induction m with
  | nil => simp [setJ, lookupJ, h]
  | cons kv rest ih =>
    obtain ⟨k0, w⟩ := kv
    by_cases h0 : (k0 == k) = true
    · have hk : k0 = k := by simpa using h0
      subst hk
      simp [setJ, lookupJ, h]
    · simp [setJ, h0, lookupJ, ih]

/-- A key that does not occur looks up to nothing. -/
theorem lookupJ_none_of_not_keyMem (key : String) :
    ∀ l : List (String × Json), keyMem key l = false → lookupJ l key = none := by
  intro l
  induction l with
  | nil => intro _; rfl
  | cons kv rest ih =>
    obtain ⟨k0, w⟩ := kv
    intro h
    rw [keyMem] at h
    simp only [Bool.or_eq_false_iff] at h
    simp [lookupJ, h.1, ih h.2]

/-- An object is exactly a `Json.obj`. -/
theorem isObj_iff {j : Json} : j.isObj = true ↔ ∃ f, j = .obj f := by
  cases j <;> simp [Json.isObj]

/-- Unless both sides are objects, the merged value is the loaded value. -/
theorem mergeVal_eq_self (dv w : Json) (h : dv.isObj = false ∨ w.isObj = false) :
    mergeVal dv w = w := by
  cases dv <;> cases w <;> simp [Json.isObj] at h ⊢ <;> simp [mergeVal]

/-- Every value stored in a well-formed field list is well-formed. -/
theorem wf_of_lookupJ :
    ∀ (l : List (String × Json)) (k : String) (w : Json),
      fieldsWf l = true → lookupJ l k = some w → w.wf = true := by
  intro l
  induction l with
  | nil => intro k w _ h; simp [lookupJ] at h
  | cons kv rest ih =>
    obtain ⟨k0, v0⟩ := kv
    intro k w hwf h
    rw [fieldsWf] at hwf
    simp only [Bool.and_eq_true, Bool.not_eq_true'] at hwf
    rw [lookupJ] at h
    by_cases h0 : (k0 == k) = true
    · rw [if_pos h0] at h
      injection h with h
      subst h
      exact hwf.1.2
    · rw [if_neg h0] at h
      exact ih k w hwf.2 h

/-- How `_merge_config` answers lookups: keys of the loaded document win,
recursively merged when both sides hold dicts; other keys fall through to the
accumulated result. -/
theorem lookupJ_mergeFields :
    ∀ (l result : List (String × Json)), fieldsWf l = true → ∀ key,
      lookupJ (mergeFields result l) key =
        match lookupJ l key with
        | some v => some (match lookupJ result key with
                          | some dv => mergeVal dv v
                          | none => v)
        | none => lookupJ result key := by
  intro l
  induction l with
  | nil => intro result _ key; simp [mergeFields, lookupJ]
  | cons kv rest ih =>
    obtain ⟨k0, v0⟩ := kv
    intro result hwf key
    rw [fieldsWf] at hwf
    simp only [Bool.and_eq_true, Bool.not_eq_true'] at hwf
    obtain ⟨⟨hnm, _⟩, hrest⟩ := hwf
    rw [mergeFields]
    by_cases hk : (k0 == key) = true
    · have hkey : k0 = key := by simpa using hk
      subst hkey
      have hnone : lookupJ rest k0 = none := lookupJ_none_of_not_keyMem k0 rest hnm
      cases hres : lookupJ result k0 with
      | some dv =>
        rw [ih (setJ result k0 (mergeVal dv v0)) hrest k0, hnone,
            lookupJ_setJ_self, lookupJ]
        simp [hres]
      | none =>
        rw [ih (setJ result k0 v0) hrest k0, hnone, lookupJ_setJ_self, lookupJ]
        simp [hres]
    · have hkb : (k0 == key) = false := by simpa using hk
      cases hres : lookupJ result k0 with
      | some dv =>
        rw [ih (setJ result k0 (mergeVal dv v0)) hrest key,
            lookupJ_setJ_ne result k0 key _ hkb, lookupJ, if_neg hk]
      | none =>
        rw [ih (setJ result k0 v0) hrest key,
            lookupJ_setJ_ne result k0 key _ hkb, lookupJ, if_neg hk]

/-- Core of C9 part 1: every leaf reachable in the loaded document is reachable
with the same value after merging the defaults underneath it. -/
theorem mergeFields_preserves_leaf :
    ∀ (path : List String) (l d : List (String × Json)) (v : Json),
      fieldsWf l = true → lookupPath (.obj l) path = some v → v.isObj = false →
      lookupPath (.obj (mergeFields d l)) path = some v := by
  intro path
  induction path with
  | nil =>
    intro l d v _ hl hv
    rw [lookupPath] at hl
    injection hl with hl
    subst hl
    simp [Json.isObj] at hv
  | cons k ks ih =>
    intro l d v hwf hl hv
    rw [lookupPath] at hl
    cases hw : lookupJ l k with
    | none => rw [hw] at hl; exact absurd hl (by simp)
    | some w =>
      rw [hw] at hl
      replace hl : lookupPath w ks = some v := hl
      rw [lookupPath, lookupJ_mergeFields l d hwf k, hw]
      cases hd : lookupJ d k with
      | none => exact hl
      | some dv =>
        show lookupPath (mergeVal dv w) ks = some v
        by_cases hdv : dv.isObj = true
        · by_cases hw2 : w.isObj = true
          · obtain ⟨df, rfl⟩ := isObj_iff.mp hdv
            obtain ⟨lf, rfl⟩ := isObj_iff.mp hw2
            have hm : mergeVal (.obj df) (.obj lf) = .obj (mergeFields df lf) := by
              simp [mergeVal]
            rw [hm]
            have hwwf := wf_of_lookupJ l k _ hwf hw
            rw [Json.wf] at hwwf
            exact ih lf df v hwwf hl hv
          · rw [mergeVal_eq_self dv w (Or.inr (by simpa using hw2))]
            exact hl
        · rw [mergeVal_eq_self dv w (Or.inl (by simpa using hdv))]
          exact hl

/-- Under completeness, keys absent from the loaded document are absent from
the defaults too. -/
theorem lookupJ_none_of_fieldsComplete :
    ∀ (d : List (String × Json)) (l : List (String × Json)) (k : String),
      fieldsComplete d l = true → lookupJ l k = none → lookupJ d k = none := by
  intro d
  induction d with
  | nil => intro l k _ _; rfl
  | cons kv rest ih =>
    obtain ⟨k0, dv0⟩ := kv
    intro l k hc hnone
    rw [fieldsComplete] at hc
    simp only [Bool.and_eq_true] at hc
    obtain ⟨hhead, hrest⟩ := hc
    rw [lookupJ]
    by_cases h0 : (k0 == k) = true
    · have hk : k0 = k := by simpa using h0
      subst hk
      rw [hnone] at hhead
      simp at hhead
    · rw [if_neg h0]
      exact ih l k hrest hnone

/-- Under completeness, matched default/loaded values are recursively
complete. -/
theorem valComplete_of_lookup :
    ∀ (d : List (String × Json)) (l : List (String × Json)) (k : String) (dv lv : Json),
      fieldsComplete d l = true → lookupJ d k = some dv → lookupJ l k = some lv →
      valComplete dv lv = true := by
  intro d
  induction d with
  | nil => intro l k dv lv _ hd _; simp [lookupJ] at hd
  | cons kv rest ih =>
    obtain ⟨k0, dv0⟩ := kv
    intro l k dv lv hc hd hl
    rw [fieldsComplete] at hc
    simp only [Bool.and_eq_true] at hc
    obtain ⟨hhead, hrest⟩ := hc
    rw [lookupJ] at hd
    by_cases h0 : (k0 == k) = true
    · have hk : k0 = k := by simpa using h0
      subst hk
      rw [if_pos (beq_self_eq_true k0)] at hd
      injection hd with hd
      subst hd
      rw [hl] at hhead
      exact hhead
    · rw [if_neg h0] at hd
      exact ih l k dv lv hrest hd hl

/-- Core of C9 part 2: on a complete loaded document, merging changes no leaf
lookup in either direction. -/
theorem mergeFields_complete_leaf_iff :
    ∀ (path : List String) (l d : List (String × Json)) (v : Json),
      fieldsWf l = true → fieldsComplete d l = true → v.isObj = false →
      (lookupPath (.obj (mergeFields d l)) path = some v ↔
        lookupPath (.obj l) path = some v) := by
  intro path
  induction path with
  | nil =>
    intro l d v _ _ hv
    constructor
    · intro h
      rw [lookupPath] at h
      injection h with h
      subst h
      simp [Json.isObj] at hv
    · intro h
      rw [lookupPath] at h
      injection h with h
      subst h
      simp [Json.isObj] at hv
  | cons k ks ih =>
    intro l d v hwf hc hv
    rw [lookupPath, lookupPath, lookupJ_mergeFields l d hwf k]
    cases hw : lookupJ l k with
    | none =>
      rw [lookupJ_none_of_fieldsComplete d l k hc hw]
    | some w =>
      cases hd : lookupJ d k with
      | none => exact Iff.rfl
      | some dv =>
        show lookupPath (mergeVal dv w) ks = some v ↔ lookupPath w ks = some v
        by_cases hdv : dv.isObj = true
        · by_cases hw2 : w.isObj = true
          · obtain ⟨df, rfl⟩ := isObj_iff.mp hdv
            obtain ⟨lf, rfl⟩ := isObj_iff.mp hw2
            have hm : mergeVal (.obj df) (.obj lf) = .obj (mergeFields df lf) := by
              simp [mergeVal]
            rw [hm]
            have hwwf := wf_of_lookupJ l k _ hwf hw
            rw [Json.wf] at hwwf
            have hvc := valComplete_of_lookup d l k _ _ hc hd hw
            rw [valComplete] at hvc
            exact ih lf df v hwwf hvc hv
          · rw [mergeVal_eq_self dv w (Or.inr (by simpa using hw2))]
        · rw [mergeVal_eq_self dv w (Or.inl (by simpa using hdv))]

/-- C9: merging the defaults into a loaded document (well-formed: distinct
keys per object) keeps every key present in the loaded document with its
loaded leaf value — unknown extra keys are preserved verbatim and loaded
values win at leaf level — and on an already-complete document the merge is
idempotent: its leaf lookups coincide with the loaded document's in both
directions. -/
theorem c9_merge_keeps_loaded_values (d l : List (String × Json))
    (hwf : fieldsWf l = true) :
    (∀ path v, lookupPath (.obj l) path = some v → v.isObj = false →
        lookupPath (.obj (mergeFields d l)) path = some v)
    ∧ (fieldsComplete d l = true → ∀ path v, v.isObj = false →
        (lookupPath (.obj (mergeFields d l)) path = some v ↔
          lookupPath (.obj l) path = some v)) :=
  ⟨fun path v hl hv => mergeFields_preserves_leaf path l d v hwf hl hv,
   fun hc path v hv => mergeFields_complete_leaf_iff path l d v hwf hc hv⟩

/-- Defaults for the C9 witness. -/
def c9defaults : List (String × Json) :=
  [("a", .num 1 0), ("nested", .obj [("x", .bool true)])]

/-- Loaded document for the C9 witness: overrides `a`, adds an unknown key. -/
def c9loaded : List (String × Json) :=
  [("a", .num 2 0), ("extra", .str "kept")]

/-- Witness for C9: the unknown key `extra` survives the merge with its loaded
leaf value. -/
theorem c9_witness :
    fieldsWf c9loaded = true
    ∧ lookupPath (.obj c9loaded) ["extra"] = some (.str "kept")
    ∧ Json.isObj (.str "kept") = false
    ∧ lookupPath (.obj (mergeFields c9defaults c9loaded)) ["extra"]
        = some (.str "kept") := by
  have hwf : fieldsWf c9loaded = true := by
    simp [c9loaded, fieldsWf, keyMem, Json.wf]
  have hpath : lookupPath (.obj c9loaded) ["extra"] = some (.str "kept") := by
    simp [c9loaded, lookupPath, lookupJ]
  refine ⟨hwf, hpath, by simp [Json.isObj], ?_⟩
  exact (c9_merge_keeps_loaded_values c9defaults c9loaded hwf).1 ["extra"] (.str "kept")
    hpath (by simp [Json.isObj])
